import Mathlib

/-!
Shallow embedding of the alloy-compat crate (src/lib.rs): bidirectional
conversions between ethereum_types and alloy_primitives values.
Fixed-size byte types (hashes, the 20-byte address, the 256-byte bloom)
are converted by moving the raw byte array; wide unsigned integers
(64/128/256/512 bits) are converted through a little-endian byte buffer
of exactly width/8 bytes. Panic branches of the underlying byte
export/import library operations are modelled with Option.
-/

/-- Little-endian byte encoding of a natural number into exactly `k` bytes;
byte `i` is `v / 256 ^ i % 256`. This is the canonical little-endian export
used by both integer libraries. -/
def natToLeBytes : Nat → Nat → List Nat
  | 0, _ => []
  | k + 1, v => v % 256 :: natToLeBytes k (v / 256)

/-- Numeric value of a little-endian byte buffer: `Σ bytes[i] * 256 ^ i`. -/
def leBytesToNat : List Nat → Nat
  | [] => 0
  | b :: bs => b + 256 * leBytesToNat bs

/-- Model of `alloy_primitives::FixedBytes<N>`: an array of `n` bytes.
The alloy aliases are B64 = FixedBytes 8, B128 = FixedBytes 16,
B256 = FixedBytes 32, B512 = FixedBytes 64 (byte lengths). -/
structure FixedBytes (n : Nat) where
  bytes : List Nat
deriving DecidableEq

/-- Model of the ethereum_types fixed-hash family H64 / H128 / H256 / H512
(and H160, aliased to Address), indexed by byte length `n`. -/
structure EthHash (n : Nat) where
  bytes : List Nat
deriving DecidableEq

/-- Model of `alloy_primitives::Address`, a newtype over `FixedBytes<20>`. -/
structure AlloyAddress where
  inner : FixedBytes 20
deriving DecidableEq

/-- `ethereum_types::Address` is an alias of the 20-byte hash type H160. -/
abbrev EthAddress : Type := EthHash 20

/-- Model of `alloy_primitives::Bloom`, a newtype over `FixedBytes<256>`. -/
structure AlloyBloom where
  inner : FixedBytes 256
deriving DecidableEq

/-- Model of `ethereum_types::Bloom`, its own 256-byte fixed-hash type. -/
structure EthBloom where
  bytes : List Nat
deriving DecidableEq

/-- Model of `alloy_primitives::Uint<BITS>` (ruint), identified by its
numeric value; the Rust type's invariant is `val < 2 ^ bits`. -/
structure AlloyUint (bits : Nat) where
  val : Nat
deriving DecidableEq

/-- Model of the ethereum_types U64 / U128 / U256 / U512 family (uint
crate), identified by its numeric value. -/
structure EthUint (bits : Nat) where
  val : Nat
deriving DecidableEq

/-- Model of ruint's `to_le_bytes::<BYTES>`: export the value into a
`reqBytes`-long little-endian buffer; the panic branch taken when
`reqBytes` differs from the type's byte width `bits / 8` is `none`. -/
def AlloyUint.to_le_bytes (bits reqBytes : Nat) (x : AlloyUint bits) : Option (List Nat) :=
  if reqBytes = bits / 8 then some (natToLeBytes reqBytes x.val) else none

/-- Model of ruint's `from_le_bytes::<BYTES>`: build a value from a
little-endian buffer; the panic branch taken when the encoded value
overflows the bit width is `none`. -/
def AlloyUint.from_le_bytes (bits : Nat) (bytes : List Nat) : Option (AlloyUint bits) :=
  if leBytesToNat bytes < 2 ^ bits then some ⟨leBytesToNat bytes⟩ else none

/-- Model of the uint crate's `from_little_endian`: build a value from a
little-endian slice; the panic branch taken when the slice is longer than
the integer's byte width is `none`. -/
def EthUint.from_little_endian (bits : Nat) (bytes : List Nat) : Option (EthUint bits) :=
  if bytes.length ≤ bits / 8 then some ⟨leBytesToNat bytes⟩ else none

/-- Model of the uint crate's `to_little_endian` into a caller-supplied
buffer of length `bufLen`: the panic branch taken when the buffer length
differs from the integer's byte width is `none`. -/
def EthUint.to_little_endian (bits bufLen : Nat) (x : EthUint bits) : Option (List Nat) :=
  if bufLen = bits / 8 then some (natToLeBytes bufLen x.val) else none

/-- The `compat_fixed_bytes!` rule, alloy-to-eth direction: destructure the
`FixedBytes` array and rewrap it in the eth hash type. -/
def compat_fixed_alloy_to_eth (n : Nat) (x : FixedBytes n) : EthHash n :=
  ⟨x.bytes⟩

/-- The `compat_fixed_bytes!` rule, eth-to-alloy direction: destructure the
eth hash and rewrap its array as `FixedBytes`. -/
def compat_fixed_eth_to_alloy (n : Nat) (x : EthHash n) : FixedBytes n :=
  ⟨x.bytes⟩

/-- The `compat_uint!` rule, alloy-to-eth direction:
`let bytes = self.to_le_bytes::<BYTES>(); from_little_endian(&bytes)`,
where `BYTES` is the alloy type's byte width `bits / 8`. -/
def compat_uint_alloy_to_eth (bits : Nat) (x : AlloyUint bits) : Option (EthUint bits) :=
  (AlloyUint.to_le_bytes bits (bits / 8) x).bind (EthUint.from_little_endian bits)

/-- The `compat_uint!` rule, eth-to-alloy direction:
`let mut bytes = [0u8; BYTES]; self.to_little_endian(&mut bytes); from_le_bytes(bytes)`. -/
def compat_uint_eth_to_alloy (bits : Nat) (x : EthUint bits) : Option (AlloyUint bits) :=
  (EthUint.to_little_endian bits (bits / 8) x).bind (AlloyUint.from_le_bytes bits)

/-- The dedicated Address impl, alloy-to-eth: move the 20 bytes into H160. -/
def compat_address_alloy_to_eth (x : AlloyAddress) : EthAddress :=
  ⟨x.inner.bytes⟩

/-- The dedicated Address impl, eth-to-alloy: move the 20 bytes into
`Address(FixedBytes(bytes))`. -/
def compat_address_eth_to_alloy (x : EthAddress) : AlloyAddress :=
  ⟨⟨x.bytes⟩⟩

/-- The dedicated Bloom impl, alloy-to-eth: move the 256 bytes. -/
def compat_bloom_alloy_to_eth (x : AlloyBloom) : EthBloom :=
  ⟨x.inner.bytes⟩

/-- The dedicated Bloom impl, eth-to-alloy: move the 256 bytes. -/
def compat_bloom_eth_to_alloy (x : EthBloom) : AlloyBloom :=
  ⟨⟨x.bytes⟩⟩

/-- Model of the sealed `Compat<T>` trait: one conversion capability per
enumerated (source, destination) pairing. -/
class SealedCompat (α β : Type) where
  compat : α → β

/-- Model of the public `Compat::compat` entry point: the blanket impl
forwards directly to the sealed capability for the statically resolved
pairing. -/
@[reducible] def compat {α β : Type} [SealedCompat α β] (x : α) : β :=
  SealedCompat.compat x

instance instCompatB64H64 : SealedCompat (FixedBytes 8) (EthHash 8) := ⟨compat_fixed_alloy_to_eth 8⟩

instance instCompatH64B64 : SealedCompat (EthHash 8) (FixedBytes 8) := ⟨compat_fixed_eth_to_alloy 8⟩

instance instCompatB128H128 : SealedCompat (FixedBytes 16) (EthHash 16) := ⟨compat_fixed_alloy_to_eth 16⟩

instance instCompatH128B128 : SealedCompat (EthHash 16) (FixedBytes 16) := ⟨compat_fixed_eth_to_alloy 16⟩

instance instCompatB256H256 : SealedCompat (FixedBytes 32) (EthHash 32) := ⟨compat_fixed_alloy_to_eth 32⟩

instance instCompatH256B256 : SealedCompat (EthHash 32) (FixedBytes 32) := ⟨compat_fixed_eth_to_alloy 32⟩

instance instCompatB512H512 : SealedCompat (FixedBytes 64) (EthHash 64) := ⟨compat_fixed_alloy_to_eth 64⟩

instance instCompatH512B512 : SealedCompat (EthHash 64) (FixedBytes 64) := ⟨compat_fixed_eth_to_alloy 64⟩

instance instCompatAlloyU64 : SealedCompat (AlloyUint 64) (Option (EthUint 64)) := ⟨compat_uint_alloy_to_eth 64⟩

instance instCompatEthU64 : SealedCompat (EthUint 64) (Option (AlloyUint 64)) := ⟨compat_uint_eth_to_alloy 64⟩

instance instCompatAlloyU128 : SealedCompat (AlloyUint 128) (Option (EthUint 128)) := ⟨compat_uint_alloy_to_eth 128⟩

instance instCompatEthU128 : SealedCompat (EthUint 128) (Option (AlloyUint 128)) := ⟨compat_uint_eth_to_alloy 128⟩

instance instCompatAlloyU256 : SealedCompat (AlloyUint 256) (Option (EthUint 256)) := ⟨compat_uint_alloy_to_eth 256⟩

instance instCompatEthU256 : SealedCompat (EthUint 256) (Option (AlloyUint 256)) := ⟨compat_uint_eth_to_alloy 256⟩

instance instCompatAlloyU512 : SealedCompat (AlloyUint 512) (Option (EthUint 512)) := ⟨compat_uint_alloy_to_eth 512⟩

instance instCompatEthU512 : SealedCompat (EthUint 512) (Option (AlloyUint 512)) := ⟨compat_uint_eth_to_alloy 512⟩

instance instCompatAlloyAddress : SealedCompat AlloyAddress EthAddress := ⟨compat_address_alloy_to_eth⟩

instance instCompatEthAddress : SealedCompat EthAddress AlloyAddress := ⟨compat_address_eth_to_alloy⟩

instance instCompatAlloyBloom : SealedCompat AlloyBloom EthBloom := ⟨compat_bloom_alloy_to_eth⟩

instance instCompatEthBloom : SealedCompat EthBloom AlloyBloom := ⟨compat_bloom_eth_to_alloy⟩

/-- Byte lengths of the generic fixed-byte pairings instantiated in the
`compat_fixed_bytes!` block: B64:H64, B128:H128, B256:H256, B512:H512. -/
def genericFixedByteLengths : List Nat := [8, 16, 32, 64]

/-- Byte lengths of the pairings left commented out in the
`compat_fixed_bytes!` block: B32:H32, B160:H160, B264:H264, B520:H520. -/
def disabledFixedByteLengths : List Nat := [4, 20, 33, 65]

/-- Byte lengths of the domain-alias pairings that have dedicated impls:
Address (20 bytes) and Bloom (256 bytes). -/
def domainAliasByteLengths : List Nat := [20, 256]

/-- Bit widths instantiated in the `compat_uint!` block: U64, U128, U256, U512. -/
def uintBitWidths : List Nat := [64, 128, 256, 512]

/-- Lowercase hexadecimal rendering of one byte, two digits, as produced by
the LowerHex impls of both address types. -/
def byteToHex (b : Nat) : List Char :=
  [Nat.digitChar (b / 16), Nat.digitChar (b % 16)]

/-- Lowercase hexadecimal rendering of a byte sequence. -/
def bytesToHex (bs : List Nat) : List Char :=
  (bs.map byteToHex).flatten

/-- The 20 bytes of the documented address deadbeefdeadbeefdeadbeefdeadbeef00000000. -/
def deadbeefBytes : List Nat :=
  [0xde, 0xad, 0xbe, 0xef, 0xde, 0xad, 0xbe, 0xef, 0xde, 0xad, 0xbe, 0xef,
   0xde, 0xad, 0xbe, 0xef, 0x00, 0x00, 0x00, 0x00]

lemma natToLeBytes_length (k : Nat) : ∀ v, (natToLeBytes k v).length = k := by
  induction k with
  | zero => intro v; rfl
  | succ k ih => intro v; simp [natToLeBytes, ih]

lemma leBytesToNat_natToLeBytes (k : Nat) :
    ∀ v, leBytesToNat (natToLeBytes k v) = v % 256 ^ k := by
  induction k with
  | zero => intro v; simp [natToLeBytes, leBytesToNat, Nat.mod_one]
  | succ k ih =>
      intro v
      rw [natToLeBytes, leBytesToNat, ih, pow_succ']
      exact Nat.mod_mul.symm

lemma pow256_div8 {bits : Nat} (h : 8 ∣ bits) : 256 ^ (bits / 8) = 2 ^ bits := by
  obtain ⟨k, rfl⟩ := h
  rw [Nat.mul_div_cancel_left k (by norm_num : 0 < 8), pow_mul]
  norm_num

lemma mem_uintBitWidths_dvd {bits : Nat} (h : bits ∈ uintBitWidths) : 8 ∣ bits := by
  fin_cases h <;> decide

lemma compat_uint_a2e_eq {bits : Nat} (h8 : 8 ∣ bits) (x : AlloyUint bits)
    (hx : x.val < 2 ^ bits) : compat_uint_alloy_to_eth bits x = some ⟨x.val⟩ := by
  unfold compat_uint_alloy_to_eth AlloyUint.to_le_bytes
  rw [if_pos rfl, Option.some_bind]
  unfold EthUint.from_little_endian
  rw [if_pos (le_of_eq (natToLeBytes_length _ _)),
    leBytesToNat_natToLeBytes, pow256_div8 h8, Nat.mod_eq_of_lt hx]

lemma compat_uint_e2a_eq {bits : Nat} (h8 : 8 ∣ bits) (x : EthUint bits)
    (hx : x.val < 2 ^ bits) : compat_uint_eth_to_alloy bits x = some ⟨x.val⟩ := by
  unfold compat_uint_eth_to_alloy EthUint.to_little_endian
  rw [if_pos rfl, Option.some_bind]
  unfold AlloyUint.from_le_bytes
  rw [leBytesToNat_natToLeBytes, pow256_div8 h8, Nat.mod_eq_of_lt hx, if_pos hx]

/-- Claim C1: for every supported fixed-size pairing (generic byte lengths
8, 16, 32, 64; the 20-byte address; the 256-byte bloom) and every byte
array, conversion in either direction produces a value whose raw byte
sequence is exactly the input's, in the same order, with no truncation,
padding, or reordering. -/
theorem fixed_size_byte_identity :
    (∀ n, n ∈ genericFixedByteLengths → ∀ (x : FixedBytes n) (y : EthHash n),
      (compat_fixed_alloy_to_eth n x).bytes = x.bytes ∧
      (compat_fixed_eth_to_alloy n y).bytes = y.bytes) ∧
    (∀ (a : AlloyAddress) (b : EthAddress),
      (compat_address_alloy_to_eth a).bytes = a.inner.bytes ∧
      (compat_address_eth_to_alloy b).inner.bytes = b.bytes) ∧
    (∀ (a : AlloyBloom) (b : EthBloom),
      (compat_bloom_alloy_to_eth a).bytes = a.inner.bytes ∧
      (compat_bloom_eth_to_alloy b).inner.bytes = b.bytes) :=
  ⟨fun _ _ _ _ => ⟨rfl, rfl⟩, fun _ _ => ⟨rfl, rfl⟩, fun _ _ => ⟨rfl, rfl⟩⟩

/-- Concrete instance of C1 at byte length 32. -/
theorem fixed_size_byte_identity_witness :
    (compat_fixed_alloy_to_eth 32 ⟨List.replicate 32 171⟩).bytes = List.replicate 32 171 :=
  (fixed_size_byte_identity.1 32 (by decide) ⟨List.replicate 32 171⟩ ⟨[]⟩).1

/-- Claim C4: for every supported byte length (generic 8, 16, 32, 64; the
20-byte address; the 256-byte bloom) and every byte sequence, converting
into the other representation and back reproduces the original value, in
both directions. -/
theorem fixed_size_round_trip :
    (∀ n, n ∈ genericFixedByteLengths → ∀ (x : FixedBytes n) (y : EthHash n),
      compat_fixed_eth_to_alloy n (compat_fixed_alloy_to_eth n x) = x ∧
      compat_fixed_alloy_to_eth n (compat_fixed_eth_to_alloy n y) = y) ∧
    (∀ (a : AlloyAddress) (b : EthAddress),
      compat_address_eth_to_alloy (compat_address_alloy_to_eth a) = a ∧
      compat_address_alloy_to_eth (compat_address_eth_to_alloy b) = b) ∧
    (∀ (a : AlloyBloom) (b : EthBloom),
      compat_bloom_eth_to_alloy (compat_bloom_alloy_to_eth a) = a ∧
      compat_bloom_alloy_to_eth (compat_bloom_eth_to_alloy b) = b) :=
  ⟨fun _ _ _ _ => ⟨rfl, rfl⟩, fun _ _ => ⟨rfl, rfl⟩, fun _ _ => ⟨rfl, rfl⟩⟩

/-- Concrete instances of C4: the all-0xFF 8-byte sequence and the all-zero
64-byte sequence round-trip. -/
theorem fixed_size_round_trip_witness :
    compat_fixed_eth_to_alloy 8 (compat_fixed_alloy_to_eth 8 ⟨List.replicate 8 255⟩) =
      (⟨List.replicate 8 255⟩ : FixedBytes 8) ∧
    compat_fixed_eth_to_alloy 64 (compat_fixed_alloy_to_eth 64 ⟨List.replicate 64 0⟩) =
      (⟨List.replicate 64 0⟩ : FixedBytes 64) :=
  ⟨(fixed_size_round_trip.1 8 (by decide) ⟨List.replicate 8 255⟩ ⟨[]⟩).1,
   (fixed_size_round_trip.1 64 (by decide) ⟨List.replicate 64 0⟩ ⟨[]⟩).1⟩

/-- Claim C2: for every supported wide-integer bit width (64, 128, 256,
512) and every representable value `v < 2 ^ w`, conversion in either
direction goes through a `w / 8`-byte little-endian buffer and yields a
value denoting exactly the same integer. -/
theorem uint_value_preservation (bits : Nat) (hb : bits ∈ uintBitWidths)
    (x : AlloyUint bits) (hx : x.val < 2 ^ bits)
    (y : EthUint bits) (hy : y.val < 2 ^ bits) :
    compat_uint_alloy_to_eth bits x = some ⟨x.val⟩ ∧
    compat_uint_eth_to_alloy bits y = some ⟨y.val⟩ :=
  ⟨compat_uint_a2e_eq (mem_uintBitWidths_dvd hb) x hx,
   compat_uint_e2a_eq (mem_uintBitWidths_dvd hb) y hy⟩

/-- Concrete instance of C2: the maximum 128-bit value converts in both
directions to the maximum 128-bit value. -/
theorem uint_value_preservation_witness :
    compat_uint_alloy_to_eth 128 ⟨2 ^ 128 - 1⟩ = some ⟨2 ^ 128 - 1⟩ ∧
    compat_uint_eth_to_alloy 128 ⟨2 ^ 128 - 1⟩ = some ⟨2 ^ 128 - 1⟩ :=
  uint_value_preservation 128 (by decide) ⟨2 ^ 128 - 1⟩ (by norm_num)
    ⟨2 ^ 128 - 1⟩ (by norm_num)

/-- Claim C3: for every supported bit width and every value `v < 2 ^ w`,
converting to the other representation and back yields `v` again, in both
compositions. -/
theorem uint_round_trip (bits : Nat) (hb : bits ∈ uintBitWidths)
    (x : AlloyUint bits) (hx : x.val < 2 ^ bits)
    (y : EthUint bits) (hy : y.val < 2 ^ bits) :
    (compat_uint_alloy_to_eth bits x).bind (compat_uint_eth_to_alloy bits) = some x ∧
    (compat_uint_eth_to_alloy bits y).bind (compat_uint_alloy_to_eth bits) = some y := by
  have h8 := mem_uintBitWidths_dvd hb
  constructor
  · rw [compat_uint_a2e_eq h8 x hx, Option.some_bind]
    exact compat_uint_e2a_eq h8 ⟨x.val⟩ hx
  · rw [compat_uint_e2a_eq h8 y hy, Option.some_bind]
    exact compat_uint_a2e_eq h8 ⟨y.val⟩ hy

/-- Concrete instances of C3: zero and the maximum 64-bit value round-trip. -/
theorem uint_round_trip_witness :
    (compat_uint_alloy_to_eth 64 ⟨0⟩).bind (compat_uint_eth_to_alloy 64) =
      some (⟨0⟩ : AlloyUint 64) ∧
    (compat_uint_eth_to_alloy 64 ⟨2 ^ 64 - 1⟩).bind (compat_uint_alloy_to_eth 64) =
      some (⟨2 ^ 64 - 1⟩ : EthUint 64) :=
  ⟨(uint_round_trip 64 (by decide) ⟨0⟩ (by norm_num) ⟨0⟩ (by norm_num)).1,
   (uint_round_trip 64 (by decide) ⟨0⟩ (by norm_num) ⟨2 ^ 64 - 1⟩ (by norm_num)).2⟩

/-- Claim C6: every conversion in the supported table is total and
infallible at runtime: for every legal source value the wide-integer path
reaches no panic branch of the little-endian export/import operations, so
a result is always produced (the fixed-size path has no failure branch by
construction). -/
theorem uint_conversion_total (bits : Nat) (hb : bits ∈ uintBitWidths)
    (x : AlloyUint bits) (hx : x.val < 2 ^ bits)
    (y : EthUint bits) (hy : y.val < 2 ^ bits) :
    (compat_uint_alloy_to_eth bits x).isSome = true ∧
    (compat_uint_eth_to_alloy bits y).isSome = true := by
  have h8 := mem_uintBitWidths_dvd hb
  rw [compat_uint_a2e_eq h8 x hx, compat_uint_e2a_eq h8 y hy]
  exact ⟨rfl, rfl⟩

/-- Concrete instance of C6 at width 256. -/
theorem uint_conversion_total_witness :
    (compat_uint_alloy_to_eth 256 ⟨12345⟩).isSome = true ∧
    (compat_uint_eth_to_alloy 256 ⟨67890⟩).isSome = true :=
  uint_conversion_total 256 (by decide) ⟨12345⟩ (by norm_num) ⟨67890⟩ (by norm_num)

/-- Claim C10: the conversion preserves the exact `w / 8`-byte
little-endian layout: the little-endian serialization of the converted
value equals that of the input byte-for-byte, in both directions. -/
theorem uint_le_byte_layout (bits : Nat) (hb : bits ∈ uintBitWidths)
    (x : AlloyUint bits) (hx : x.val < 2 ^ bits) (y : EthUint bits)
    (z : EthUint bits) (hz : z.val < 2 ^ bits) (w : AlloyUint bits) :
    (compat_uint_alloy_to_eth bits x = some y →
      EthUint.to_little_endian bits (bits / 8) y = AlloyUint.to_le_bytes bits (bits / 8) x) ∧
    (compat_uint_eth_to_alloy bits z = some w →
      AlloyUint.to_le_bytes bits (bits / 8) w = EthUint.to_little_endian bits (bits / 8) z) := by
  have h8 := mem_uintBitWidths_dvd hb
  constructor
  · intro h
    rw [compat_uint_a2e_eq h8 x hx] at h
    obtain rfl : (⟨x.val⟩ : EthUint bits) = y := Option.some.inj h
    rfl
  · intro h
    rw [compat_uint_e2a_eq h8 z hz] at h
    obtain rfl : (⟨z.val⟩ : AlloyUint bits) = w := Option.some.inj h
    rfl

/-- Concrete instance of C10 at width 64 and value 5. -/
theorem uint_le_byte_layout_witness :
    EthUint.to_little_endian 64 8 ⟨5⟩ = AlloyUint.to_le_bytes 64 8 (⟨5⟩ : AlloyUint 64) :=
  (uint_le_byte_layout 64 (by decide) ⟨5⟩ (by norm_num) ⟨5⟩ ⟨7⟩ (by norm_num) ⟨7⟩).1
    (by decide)

/-- Claim C5: the pairing tables are exactly the enumerated ones: generic
fixed byte lengths 8, 16, 32, 64; domain aliases 20 (address) and 256
(bloom); wide-integer bit widths 64, 128, 256, 512; and the byte widths
4, 20 (raw, non-address), 33, 65 appear in no fixed-byte table, so no
conversion rule exists for them. -/
theorem pairing_table_exact :
    genericFixedByteLengths = [8, 16, 32, 64] ∧
    domainAliasByteLengths = [20, 256] ∧
    uintBitWidths = [64, 128, 256, 512] ∧
    disabledFixedByteLengths = [4, 20, 33, 65] ∧
    (4 : Nat) ∉ genericFixedByteLengths ∧ (4 : Nat) ∉ domainAliasByteLengths ∧
    (20 : Nat) ∉ genericFixedByteLengths ∧
    (33 : Nat) ∉ genericFixedByteLengths ∧ (33 : Nat) ∉ domainAliasByteLengths ∧
    (65 : Nat) ∉ genericFixedByteLengths ∧ (65 : Nat) ∉ domainAliasByteLengths := by
  decide

/-- Claim C7: the public `compat` entry point is pure pass-through: for
every supported pairing and every source value it returns exactly the
result of the corresponding elementary per-pairing conversion. -/
theorem compat_dispatch_pass_through :
    (∀ x : FixedBytes 8, compat x = compat_fixed_alloy_to_eth 8 x) ∧
    (∀ x : EthHash 8, compat x = compat_fixed_eth_to_alloy 8 x) ∧
    (∀ x : FixedBytes 16, compat x = compat_fixed_alloy_to_eth 16 x) ∧
    (∀ x : EthHash 16, compat x = compat_fixed_eth_to_alloy 16 x) ∧
    (∀ x : FixedBytes 32, compat x = compat_fixed_alloy_to_eth 32 x) ∧
    (∀ x : EthHash 32, compat x = compat_fixed_eth_to_alloy 32 x) ∧
    (∀ x : FixedBytes 64, compat x = compat_fixed_alloy_to_eth 64 x) ∧
    (∀ x : EthHash 64, compat x = compat_fixed_eth_to_alloy 64 x) ∧
    (∀ x : AlloyUint 64, compat x = compat_uint_alloy_to_eth 64 x) ∧
    (∀ x : EthUint 64, compat x = compat_uint_eth_to_alloy 64 x) ∧
    (∀ x : AlloyUint 128, compat x = compat_uint_alloy_to_eth 128 x) ∧
    (∀ x : EthUint 128, compat x = compat_uint_eth_to_alloy 128 x) ∧
    (∀ x : AlloyUint 256, compat x = compat_uint_alloy_to_eth 256 x) ∧
    (∀ x : EthUint 256, compat x = compat_uint_eth_to_alloy 256 x) ∧
    (∀ x : AlloyUint 512, compat x = compat_uint_alloy_to_eth 512 x) ∧
    (∀ x : EthUint 512, compat x = compat_uint_eth_to_alloy 512 x) ∧
    (∀ x : AlloyAddress, compat x = compat_address_alloy_to_eth x) ∧
    (∀ x : EthAddress, compat x = compat_address_eth_to_alloy x) ∧
    (∀ x : AlloyBloom, compat x = compat_bloom_alloy_to_eth x) ∧
    (∀ x : EthBloom, compat x = compat_bloom_eth_to_alloy x) := by
  refine ⟨?_, ?_, ?_, ?_, ?_, ?_, ?_, ?_, ?_, ?_, ?_, ?_, ?_, ?_, ?_, ?_, ?_, ?_, ?_, ?_⟩
  all_goals intro x
  all_goals with_reducible_and_instances rfl

/-- Claim C8: every conversion operation is a deterministic pure function
of its input alone: equal inputs produce equal outputs, for every
elementary conversion of the table. -/
theorem conversions_deterministic :
    (∀ (n : Nat) (a b : FixedBytes n), a = b →
      compat_fixed_alloy_to_eth n a = compat_fixed_alloy_to_eth n b) ∧
    (∀ (n : Nat) (a b : EthHash n), a = b →
      compat_fixed_eth_to_alloy n a = compat_fixed_eth_to_alloy n b) ∧
    (∀ (bits : Nat) (a b : AlloyUint bits), a = b →
      compat_uint_alloy_to_eth bits a = compat_uint_alloy_to_eth bits b) ∧
    (∀ (bits : Nat) (a b : EthUint bits), a = b →
      compat_uint_eth_to_alloy bits a = compat_uint_eth_to_alloy bits b) ∧
    (∀ a b : AlloyAddress, a = b →
      compat_address_alloy_to_eth a = compat_address_alloy_to_eth b) ∧
    (∀ a b : EthAddress, a = b →
      compat_address_eth_to_alloy a = compat_address_eth_to_alloy b) ∧
    (∀ a b : AlloyBloom, a = b →
      compat_bloom_alloy_to_eth a = compat_bloom_alloy_to_eth b) ∧
    (∀ a b : EthBloom, a = b →
      compat_bloom_eth_to_alloy a = compat_bloom_eth_to_alloy b) :=
  ⟨fun n _ _ h => congrArg (compat_fixed_alloy_to_eth n) h,
   fun n _ _ h => congrArg (compat_fixed_eth_to_alloy n) h,
   fun bits _ _ h => congrArg (compat_uint_alloy_to_eth bits) h,
   fun bits _ _ h => congrArg (compat_uint_eth_to_alloy bits) h,
   fun _ _ h => congrArg compat_address_alloy_to_eth h,
   fun _ _ h => congrArg compat_address_eth_to_alloy h,
   fun _ _ h => congrArg compat_bloom_alloy_to_eth h,
   fun _ _ h => congrArg compat_bloom_eth_to_alloy h⟩

/-- Concrete instance of C8: two invocations on the same 8-byte value agree. -/
theorem conversions_deterministic_witness :
    compat_fixed_alloy_to_eth 8 ⟨[1, 2, 3, 4, 5, 6, 7, 8]⟩ =
      compat_fixed_alloy_to_eth 8 ⟨[1, 2, 3, 4, 5, 6, 7, 8]⟩ :=
  conversions_deterministic.1 8 ⟨[1, 2, 3, 4, 5, 6, 7, 8]⟩ ⟨[1, 2, 3, 4, 5, 6, 7, 8]⟩ rfl

/-- Claim C9: the 20-byte sequence deadbeefdeadbeefdeadbeefdeadbeef00000000
held as an alloy address converts to an eth address with the identical 20
bytes, converting back reproduces the original address exactly, and the
canonical lowercase-hex renderings agree (and equal the documented hex
string). -/
theorem address_scenario :
    (compat_address_alloy_to_eth ⟨⟨deadbeefBytes⟩⟩).bytes = deadbeefBytes ∧
    compat_address_eth_to_alloy (compat_address_alloy_to_eth ⟨⟨deadbeefBytes⟩⟩) =
      (⟨⟨deadbeefBytes⟩⟩ : AlloyAddress) ∧
    bytesToHex (compat_address_alloy_to_eth ⟨⟨deadbeefBytes⟩⟩).bytes =
      bytesToHex deadbeefBytes ∧
    bytesToHex deadbeefBytes =
      ['d', 'e', 'a', 'd', 'b', 'e', 'e', 'f', 'd', 'e', 'a', 'd', 'b', 'e', 'e', 'f',
       'd', 'e', 'a', 'd', 'b', 'e', 'e', 'f', 'd', 'e', 'a', 'd', 'b', 'e', 'e', 'f',
       '0', '0', '0', '0', '0', '0', '0', '0'] :=
  ⟨rfl, rfl, rfl, by decide⟩
